import Mathlib

/-!
Verification of the vulkan-test repository's swapchain negotiation and
multi-threaded command-buffer recording logic against its specification.

The development is a shallow embedding of the decision logic of three
source files:

* `src/test03/source/test1.cpp` — swapchain-initialization sample
  (`sample_main`), referred to below as the "sample" path;
* `src/test04/source/VulkanSwapChain.hpp` — the `VulkanSwapChain` class
  (`initSurface`, `create`, `cleanup`), referred to as the "vsc" path;
* `src/test04/source/vulkanchromedemo.cpp` — the scene renderer
  (`Scene::render`, `Scene::loadMaterials`) and the multi-threaded
  secondary-command-buffer scheduler (`VulkanExample`).

Opaque driver handles are abstracted: machine integers become `Nat`,
Vulkan enumerants keep their numeric values, driver calls that only
produce handles are dropped, and fatal exits (`exitFatal`, failed
`assert`) are modelled as `Except.error` carrying the diagnostic text.
-/

namespace VulkanTest

/-! ## Vulkan enumerant values used by the sources -/

/-- `VK_FORMAT_UNDEFINED` (value 0 in `vulkan.h`). -/
def VK_FORMAT_UNDEFINED : Nat := 0

/-- `VK_FORMAT_B8G8R8A8_UNORM` (value 44 in `vulkan.h`). -/
def VK_FORMAT_B8G8R8A8_UNORM : Nat := 44

/-- The sentinel `(uint32_t)-1` / `0xFFFFFFFF` used for "surface size
undefined" in `VkSurfaceCapabilitiesKHR::currentExtent` and for
"index not found" (`UINT32_MAX`) in the queue searches. -/
def UINT32_MAX : Nat := 4294967295

/-- `VkSharingMode`: `VK_SHARING_MODE_EXCLUSIVE = 0`,
`VK_SHARING_MODE_CONCURRENT = 1`. -/
inductive SharingMode where
  | exclusive
  | concurrent
  deriving DecidableEq, Repr

/-! ## Queue family selection

Both `test1.cpp` (lines 189–214) and `VulkanSwapChain::initSurface`
(lines 178–211) run the identical two-pass search over the queue-family
list: pass one scans for a graphics family, remembering the first one,
and stops at the first graphics family that also supports present;
pass two, entered only when pass one found no combined family, takes
the first present-capable family. -/

/-- One entry of the queue-family table: whether the family has
`VK_QUEUE_GRAPHICS_BIT`, and the `supportsPresent[i]` result for it. -/
structure QueueFamily where
  graphics : Bool
  present : Bool
  deriving DecidableEq, Repr

/-- Pass one of the search (`test1.cpp` 193–204, `VulkanSwapChain.hpp`
182–198).  `i` is the index of the head of `fams` in the original list
and `g` the accumulator for `graphics_queue_family_index` (`none`
standing for `UINT32_MAX`).  Returns the pair
(`graphicsQueueNodeIndex`, `presentQueueNodeIndex`) after the loop. -/
def pass1 : List QueueFamily → Nat → Option Nat → Option Nat × Option Nat
  | [], _, g => (g, none)
  | f :: rest, i, g =>
    if f.graphics then
      if f.present then (some i, some i)
      else pass1 rest (i + 1) (if g.isNone then some i else g)
    else pass1 rest (i + 1) g

/-- Pass two (`test1.cpp` 206–214, `VulkanSwapChain.hpp` 199–211):
first present-capable family index, head of `fams` having index `i`. -/
def findPresent : List QueueFamily → Nat → Option Nat
  | [], _ => none
  | f :: rest, i => if f.present then some i else findPresent rest (i + 1)

/-- Characterization helper (not itself a loop of the source): the
index of the first graphics-capable family, head of `fams` having
index `i`.  Used to state what `pass1` returns when no combined
family exists. -/
def findGraphics : List QueueFamily → Nat → Option Nat
  | [], _ => none
  | f :: rest, i => if f.graphics then some i else findGraphics rest (i + 1)

/-- The complete two-pass selection: the result of pass one, with the
present index filled in by pass two when pass one left it unset. -/
def selectQueueIndices (fams : List QueueFamily) : Option Nat × Option Nat :=
  let gp := pass1 fams 0 none
  match gp.2 with
  | some _ => gp
  | none => (gp.1, findPresent fams 0)

/-- `VulkanSwapChain::initSurface` after the queue search
(lines 213–225): exits fatally when either index is unset, exits
fatally when the two indices differ, otherwise stores the shared index
in `queueNodeIndex`. -/
def initSurfaceQueueNodeIndex (fams : List QueueFamily) : Except String Nat :=
  match selectQueueIndices fams with
  | (some g, some p) =>
    if g ≠ p then
      Except.error "Separate graphics and presenting queues are not supported yet!"
    else
      Except.ok g
  | _ => Except.error "Could not find a graphics and/or presenting queue!"

/-- `sample_main` after the queue search (`test1.cpp` 217–224): exits
(-1) when either index is unset, otherwise keeps both indices. -/
def sampleQueueIndices (fams : List QueueFamily) : Except String (Nat × Nat) :=
  match selectQueueIndices fams with
  | (some g, some p) => Except.ok (g, p)
  | _ => Except.error "Could not find a queues for graphics and present"

/-- `sample_main`'s sharing-mode decision (`test1.cpp` 330–344): the
swapchain is created concurrent, listing both family indices, exactly
when the two indices differ; otherwise exclusive with no index list. -/
def sampleSharing (g p : Nat) : SharingMode × List Nat :=
  if g ≠ p then (SharingMode.concurrent, [g, p]) else (SharingMode.exclusive, [])

/-- `VulkanSwapChain::create` sets `swapchainCI.imageSharingMode`
unconditionally (line 411). -/
def vscImageSharingMode : SharingMode := SharingMode.exclusive

/-! ## Surface capabilities, extent, image count -/

/-- `VkExtent2D`. -/
structure Extent2D where
  width : Nat
  height : Nat
  deriving DecidableEq, Repr

/-- The fields of `VkSurfaceCapabilitiesKHR` that the sources read when
choosing the swapchain extent and image count. -/
structure SurfaceCaps where
  currentExtent : Extent2D
  minImageExtent : Extent2D
  maxImageExtent : Extent2D
  minImageCount : Nat
  maxImageCount : Nat
  deriving DecidableEq, Repr

/-- Extent selection in `sample_main` (`test1.cpp` 267–293): when the
surface reports the undefined sentinel width, each component of the
requested size is clamped to `[minImageExtent, maxImageExtent]`;
otherwise the surface's `currentExtent` is used as-is. -/
def sampleSwapchainExtent (caps : SurfaceCaps) (req : Extent2D) : Extent2D :=
  if caps.currentExtent.width = UINT32_MAX then
    let w :=
      if req.width < caps.minImageExtent.width then caps.minImageExtent.width
      else if req.width > caps.maxImageExtent.width then caps.maxImageExtent.width
      else req.width
    let h :=
      if req.height < caps.minImageExtent.height then caps.minImageExtent.height
      else if req.height > caps.maxImageExtent.height then caps.maxImageExtent.height
      else req.height
    ⟨w, h⟩
  else
    caps.currentExtent

/-- Extent selection in `VulkanSwapChain::create`
(`VulkanSwapChain.hpp` 323–338): when the surface reports the undefined
sentinel width, the requested size is used unchanged (no clamping);
otherwise the surface's `currentExtent` is used. -/
def vscSwapchainExtent (caps : SurfaceCaps) (req : Extent2D) : Extent2D :=
  if caps.currentExtent.width = UINT32_MAX then
    ⟨req.width, req.height⟩
  else
    caps.currentExtent

/-- What the specification's words describe for the realized extent:
the requested value clamped component-wise to
`[minImageExtent, maxImageExtent]`.  Kept separate from the two
source-derived functions above so the claim can be compared with each. -/
def specClampedExtent (caps : SurfaceCaps) (req : Extent2D) : Extent2D :=
  ⟨if req.width < caps.minImageExtent.width then caps.minImageExtent.width
   else if req.width > caps.maxImageExtent.width then caps.maxImageExtent.width
   else req.width,
   if req.height < caps.minImageExtent.height then caps.minImageExtent.height
   else if req.height > caps.maxImageExtent.height then caps.maxImageExtent.height
   else req.height⟩

/-- Image count chosen by `VulkanSwapChain::create`
(`VulkanSwapChain.hpp` 365–370): `minImageCount + 1`, lowered to
`maxImageCount` when the latter is nonzero (bounded) and exceeded. -/
def vscDesiredImageCount (caps : SurfaceCaps) : Nat :=
  let desired := caps.minImageCount + 1
  if caps.maxImageCount > 0 ∧ desired > caps.maxImageCount then
    caps.maxImageCount
  else
    desired

/-- Image count requested by `sample_main` (`test1.cpp` 298–303):
exactly the surface's `minImageCount`. -/
def sampleDesiredImageCount (caps : SurfaceCaps) : Nat :=
  caps.minImageCount

/-! ## Surface format selection -/

/-- `VkSurfaceFormatKHR`: a format and a color space, both kept as
their numeric enumerant values. -/
structure SurfaceFormat where
  format : Nat
  colorSpace : Nat
  deriving DecidableEq, Repr

/-- Format selection in `VulkanSwapChain::initSurface`
(`VulkanSwapChain.hpp` 237–267): if the list is the single entry
`VK_FORMAT_UNDEFINED`, substitute `VK_FORMAT_B8G8R8A8_UNORM` (keeping
the reported color space); otherwise take the first reported entry with
format `VK_FORMAT_B8G8R8A8_UNORM` if one exists, else the first entry.
The source asserts `formatCount > 0` before this point; the empty list
is given the (unreachable) `headD` default. -/
def initSurfaceColorFormat (formats : List SurfaceFormat) : SurfaceFormat :=
  let first := formats.headD ⟨VK_FORMAT_UNDEFINED, 0⟩
  if formats.length = 1 ∧ first.format = VK_FORMAT_UNDEFINED then
    ⟨VK_FORMAT_B8G8R8A8_UNORM, first.colorSpace⟩
  else
    match formats.find? (fun f => f.format = VK_FORMAT_B8G8R8A8_UNORM) with
    | some f => f
    | none => first

/-- Format selection in `sample_main` (`test1.cpp` 238–247): the
sentinel single-undefined case yields `VK_FORMAT_B8G8R8A8_UNORM`,
otherwise the first reported format. -/
def sampleFormat (formats : List SurfaceFormat) : Nat :=
  let first := formats.headD ⟨VK_FORMAT_UNDEFINED, 0⟩
  if formats.length = 1 ∧ first.format = VK_FORMAT_UNDEFINED then
    VK_FORMAT_B8G8R8A8_UNORM
  else
    first.format

/-! ## Initialization outcome (`VulkanSwapChain`)

`initSurface` terminates fatally on the queue-selection failures above
and asserts `formatCount > 0` (line 231); `create` asserts
`presentModeCount > 0` (line 316).  The chain of these checks, in
program order, with every fatal exit or failed assertion modelled as
`Except.error` carrying its diagnostic. -/

def vscInitSequence (fams : List QueueFamily) (formats : List SurfaceFormat)
    (presentModes : List Nat) : Except String (Nat × SurfaceFormat) :=
  match initSurfaceQueueNodeIndex fams with
  | Except.error e => Except.error e
  | Except.ok q =>
    if formats.isEmpty then
      Except.error "assertion failed: formatCount > 0"
    else
      let fmt := initSurfaceColorFormat formats
      if presentModes.isEmpty then
        Except.error "assertion failed: presentModeCount > 0"
      else
        Except.ok (q, fmt)

/-! ## Swapchain (re)creation event order (`VulkanSwapChain::create`)

`create` (lines 302–478) is modelled as the ordered trace of the
handle-lifecycle events it performs: it snapshots the old chain handle,
creates the new chain (passing the old one as `oldSwapchain`), then —
only when an old chain existed — destroys the old image views and the
old chain handle, then fetches the new images and creates the new image
views. -/

inductive CreateEv where
  | createSwapchain
  | destroyOldViews
  | destroyOldSwapchain
  | getImages
  | createNewViews
  deriving DecidableEq, Repr

/-- The event trace of one `VulkanSwapChain::create` call;
`hasOld` is whether the snapshotted `oldSwapchain` handle was non-null
(line 432). -/
def vscCreateTrace (hasOld : Bool) : List CreateEv :=
  [CreateEv.createSwapchain]
    ++ (if hasOld then [CreateEv.destroyOldViews, CreateEv.destroyOldSwapchain] else [])
    ++ [CreateEv.getImages, CreateEv.createNewViews]

/-- The events of a trace that occur strictly before the first
occurrence of `e`. -/
def eventsBefore (tr : List CreateEv) (e : CreateEv) : List CreateEv :=
  tr.takeWhile (fun x => x ≠ e)

/-! ## Cleanup (`VulkanSwapChain::cleanup`)

`cleanup` (lines 527–543) destroys the image views when the swapchain
handle is non-null, destroys the swapchain and the surface when the
surface handle is non-null, and then nulls both handles.  Handles are
modelled as `Bool` (non-null?), together with the emitted list of
destruction actions. -/

structure VscState where
  swapChainNonNull : Bool
  surfaceNonNull : Bool
  imageCount : Nat
  deriving DecidableEq, Repr

inductive CleanupAct where
  | destroyImageView (i : Nat)
  | destroySwapchain
  | destroySurface
  deriving DecidableEq, Repr

def cleanup (s : VscState) : VscState × List CleanupAct :=
  let viewActs :=
    if s.swapChainNonNull then
      (List.range s.imageCount).map CleanupAct.destroyImageView
    else []
  let chainActs :=
    if s.surfaceNonNull then
      [CleanupAct.destroySwapchain, CleanupAct.destroySurface]
    else []
  ({ s with swapChainNonNull := false, surfaceNonNull := false },
   viewActs ++ chainActs)

/-! ## Scene render bucketing (`Scene::render`)

`Scene::render` (`vulkanchromedemo.cpp` 595–646) makes one pass over
the meshes, assigning each index to one of three vectors —
`bgMeshIds`, `nonAlphaMeshIds`, `alphaMeshIds` — and then renders the
three vectors in the order bg, nonAlpha, alpha.  The bucket tests read
`std::string::find` into an `int` and compare with `> 0`:
`find` returns the smallest occurrence position, or `npos`, which the
int conversion turns into `-1`.  Material names are modelled as
`List Char`. -/

/-- `std::string::find(pat)`: smallest position at which `pat` occurs
in `s`, or `none` for `npos`. -/
def strFind (s pat : List Char) : Option Nat :=
  (List.range (s.length + 1)).find? (fun i => pat.isPrefixOf (s.drop i))

/-- The source's `int val = name.find(pat); val > 0` test: true exactly
when the substring occurs at some position strictly greater than zero
(`npos` converts to `-1`, a position to itself). -/
def findGtZero (s pat : List Char) : Bool :=
  match strFind s pat with
  | some k => decide (0 < k)
  | none => false

/-- Phrased from the spec's words — "a substring match in material
names" / "material name contains the substring": occurrence at any
position.  Kept separate from `findGtZero` for comparison. -/
def specContainsSub (s pat : List Char) : Bool :=
  (strFind s pat).isSome

inductive Bucket where
  | bg
  | standard
  | alphaBlend
  deriving DecidableEq, Repr

/-- The bucket `Scene::render` assigns to a mesh with the given
material name (lines 614–628): the `"alpha"` test runs first, then the
`"mask"` test, each via `find(...) > 0`. -/
def renderBucket (name : List Char) : Bucket :=
  if findGtZero name ('a' :: 'l' :: 'p' :: 'h' :: 'a' :: []) then Bucket.alphaBlend
  else if findGtZero name ('m' :: 'a' :: 's' :: 'k' :: []) then Bucket.bg
  else Bucket.standard

/-- The classification loop (lines 609–629) with
`renderSingleScenePart == false`: mesh index `i` counts from the given
start value; returns (`bgMeshIds`, `nonAlphaMeshIds`, `alphaMeshIds`). -/
def bucketLoop : Nat → List (List Char) → List Nat × List Nat × List Nat
  | _, [] => ([], [], [])
  | i, n :: rest =>
    let r := bucketLoop (i + 1) rest
    match renderBucket n with
    | Bucket.alphaBlend => (r.1, r.2.1, i :: r.2.2)
    | Bucket.bg => (i :: r.1, r.2.1, r.2.2)
    | Bucket.standard => (r.1, i :: r.2.1, r.2.2)

/-- The full draw order of `Scene::render` (lines 631–644): every bg
mesh, then every standard mesh, then every alpha mesh, each group in
mesh-index order. -/
def sceneRenderOrder (names : List (List Char)) : List Nat :=
  let r := bucketLoop 0 names
  r.1 ++ r.2.1 ++ r.2.2

/-! ## Multi-threaded command-buffer scheduler (`VulkanExample`)

The constructor (`vulkanchromedemo.cpp` 701–716) fixes
`numObjectsPerThread = 1024 / numThreads`.  `updateCommandBuffers`
(lines 1774–1805) enqueues one `threadRenderCode(t, i, …)` job on
worker `t`'s queue for every worker `t` and slot `i`, joins the pool,
and then walks workers in order `0..numThreads-1` and slots in order
`0..numObjectsPerThread-1`, pushing worker `t`'s secondary command
buffer for slot `i` exactly when that object's `visible` flag is set.
`threadRenderCode` (lines 1619–1685) sets `visible` to the frustum
sphere test's result and records the buffer only when it is true.
The frustum test itself (`frustum.checkSphere`, from the example-base
headers outside `src/`) enters as an abstract per-object boolean. -/

/-- The fields of `ObjectData` the scheduler's control flow reads. -/
structure ObjectData where
  visible : Bool
  deriving DecidableEq, Repr

/-- `threadRenderCode`'s effect on its object's state: the `visible`
flag is overwritten with the frustum test result `check`
(line 1628); the secondary buffer is recorded exactly when
`check` is true (lines 1630–1633). -/
def threadRenderCode (check : Bool) (od : ObjectData) : ObjectData :=
  { od with visible := check }

/-- State of all per-object data after every dispatched job has run
(the pool is joined, so all `numThreads × numObjectsPerThread` jobs
completed): object `(t, i)` inside the dispatched range has been put
through `threadRenderCode` with its frustum result. -/
def runFrameJobs (numThreads numObjectsPerThread : Nat)
    (check : Nat → Nat → Bool) (data : Nat → Nat → ObjectData) :
    Nat → Nat → ObjectData :=
  fun t i =>
    if t < numThreads ∧ i < numObjectsPerThread then
      threadRenderCode (check t i) (data t i)
    else data t i

/-- The assembly loop of `updateCommandBuffers` (lines 1785–1797):
workers in order, slots in order, keeping slot `(t, i)`'s buffer
exactly when its object is marked visible.  A buffer is identified by
its `(worker, slot)` pair. -/
def assembleCommandBuffers (numThreads numObjectsPerThread : Nat)
    (data : Nat → Nat → ObjectData) : List (Nat × Nat) :=
  (List.range numThreads).flatMap (fun t =>
    (((List.range numObjectsPerThread).filter (fun i => (data t i).visible)).map
      (fun i => (t, i))))

/-- One frame of `updateCommandBuffers`: dispatch all jobs, join, then
assemble the execute-commands list. -/
def updateCommandBuffers (numThreads numObjectsPerThread : Nat)
    (check : Nat → Nat → Bool) (data : Nat → Nat → ObjectData) :
    List (Nat × Nat) :=
  assembleCommandBuffers numThreads numObjectsPerThread
    (runFrameJobs numThreads numObjectsPerThread check data)

/-- Every `(worker, slot)` pair in dispatch order (the two nested loops
of lines 1774–1780): worker-major, slot-minor. -/
def dispatchJobs (numThreads numObjectsPerThread : Nat) : List (Nat × Nat) :=
  (List.range numThreads).flatMap (fun t =>
    (List.range numObjectsPerThread).map (fun i => (t, i)))

/-- `numObjectsPerThread = 1024 / numThreads`
(`vulkanchromedemo.cpp` line 715). -/
def numObjectsPerThread (numThreads : Nat) : Nat :=
  1024 / numThreads

/-! ## Theorems -/

/-- Claim C10: `VulkanSwapChain::cleanup` is idempotent — after one
call both the swapchain and surface handles are null, and a second
call performs no destruction (the image-view loop is skipped because
the swapchain handle is null, the swapchain/surface destruction is
skipped because the surface handle is null) and leaves the state
unchanged. -/
theorem cleanup_idempotent (s : VscState) :
    (cleanup s).1.swapChainNonNull = false ∧
    (cleanup s).1.surfaceNonNull = false ∧
    cleanup (cleanup s).1 = ((cleanup s).1, []) := by
  refine ⟨rfl, rfl, ?_⟩
  simp [cleanup]

/-- Claim C6, counterexample: in a recreation (`oldSwapchain` non-null)
the old image views and the old swapchain handle are destroyed
*before* the new chain's image views are created, so the claim that
destruction happens only after the new swapchain *and its image views*
have been created is false on the code: both destroy events lie
strictly before `createNewViews` in the trace of
`VulkanSwapChain::create`. -/
theorem vscCreate_destroys_before_new_views :
    CreateEv.destroyOldViews ∈
      eventsBefore (vscCreateTrace true) CreateEv.createNewViews ∧
    CreateEv.destroyOldSwapchain ∈
      eventsBefore (vscCreateTrace true) CreateEv.createNewViews := by
  exact ⟨by decide, by decide⟩

/-- Claim C6, amended: during recreation the old swapchain and its
image views are destroyed only after the new swapchain handle has been
created (nothing precedes `createSwapchain` in the trace), so there is
no window without a valid swapchain handle; the destruction does
however occur before the new chain's image views are created, and it
occurs exactly when an old chain existed. -/
theorem vscCreate_two_phase (hasOld : Bool) :
    eventsBefore (vscCreateTrace hasOld) CreateEv.createSwapchain = [] ∧
    (CreateEv.destroyOldViews ∈
        eventsBefore (vscCreateTrace hasOld) CreateEv.createNewViews ↔
      hasOld = true) ∧
    (CreateEv.destroyOldSwapchain ∈
        eventsBefore (vscCreateTrace hasOld) CreateEv.createNewViews ↔
      hasOld = true) := by
  cases hasOld <;> exact ⟨by decide, by decide, by decide⟩

/-- Claim C4, counterexample: the `test1.cpp` sample requests exactly
`minImageCount` images (line 303), not `minImageCount + 1`; for a
surface reporting `minImageCount = 2`, `maxImageCount = 0`, the sample
requests 2 where the claim's formula gives 3. -/
theorem sampleImageCount_not_min_plus_one :
    sampleDesiredImageCount ⟨⟨0, 0⟩, ⟨0, 0⟩, ⟨0, 0⟩, 2, 0⟩ = 2 ∧
    vscDesiredImageCount ⟨⟨0, 0⟩, ⟨0, 0⟩, ⟨0, 0⟩, 2, 0⟩ = 3 ∧
    (2 : Nat) ≠ 3 := by
  exact ⟨rfl, rfl, by decide⟩

/-- Claim C4, amended: `VulkanSwapChain::create` requests
`minImageCount + 1` images, reduced to `maxImageCount` when that bound
is nonzero and smaller (equivalently, `min (minImageCount + 1)
maxImageCount` in the bounded case); the `test1.cpp` sample instead
requests exactly `minImageCount`. -/
theorem imageCount_policy (caps : SurfaceCaps) :
    (caps.maxImageCount = 0 →
      vscDesiredImageCount caps = caps.minImageCount + 1) ∧
    (0 < caps.maxImageCount →
      vscDesiredImageCount caps =
        min (caps.minImageCount + 1) caps.maxImageCount) ∧
    sampleDesiredImageCount caps = caps.minImageCount := by
  refine ⟨?_, ?_, rfl⟩
  · intro h
    simp [vscDesiredImageCount, h]
  · intro h
    simp only [vscDesiredImageCount]
    split
    · next hc => omega
    · next hc =>
      rw [not_and_or] at hc
      omega

/-- Witness for `imageCount_policy` at `minImageCount = 3`,
`maxImageCount = 2`. -/
theorem imageCount_policy_witness :
    vscDesiredImageCount ⟨⟨0, 0⟩, ⟨0, 0⟩, ⟨0, 0⟩, 3, 2⟩ = min (3 + 1) 2 :=
  (imageCount_policy ⟨⟨0, 0⟩, ⟨0, 0⟩, ⟨0, 0⟩, 3, 2⟩).2.1 (by decide)

/-- Claim C3, counterexample: `VulkanSwapChain::create` performs no
clamping — with the surface extent undefined (sentinel width), bounds
`[100,200] × [100,200]`, and a requested extent `50 × 50` (outside the
range), the extent used is `50 × 50`, not the clamped `100 × 100`. -/
theorem vscExtent_not_clamped :
    vscSwapchainExtent
        ⟨⟨4294967295, 4294967295⟩, ⟨100, 100⟩, ⟨200, 200⟩, 2, 3⟩
        ⟨50, 50⟩ = ⟨50, 50⟩ ∧
    specClampedExtent
        ⟨⟨4294967295, 4294967295⟩, ⟨100, 100⟩, ⟨200, 200⟩, 2, 3⟩
        ⟨50, 50⟩ = ⟨100, 100⟩ ∧
    (50 : Nat) < 100 ∧
    (⟨50, 50⟩ : Extent2D) ≠ ⟨100, 100⟩ := by
  exact ⟨by decide, by decide, by decide, by decide⟩

/-- Claim C3, amended: when the surface reports the undefined-extent
sentinel, the `test1.cpp` sample clamps the requested extent
component-wise to `[minImageExtent, maxImageExtent]`, while
`VulkanSwapChain::create` uses the requested extent unchanged; when the
surface reports a definite extent, both use the surface's
`currentExtent` and ignore the requested value. -/
theorem extent_policy (caps : SurfaceCaps) (req : Extent2D) :
    (caps.currentExtent.width = UINT32_MAX →
      sampleSwapchainExtent caps req = specClampedExtent caps req ∧
      vscSwapchainExtent caps req = req) ∧
    (caps.currentExtent.width ≠ UINT32_MAX →
      sampleSwapchainExtent caps req = caps.currentExtent ∧
      vscSwapchainExtent caps req = caps.currentExtent) := by
  constructor
  · intro h
    constructor
    · simp [sampleSwapchainExtent, specClampedExtent, h]
    · simp [vscSwapchainExtent, h]
  · intro h
    constructor
    · simp [sampleSwapchainExtent, h]
    · simp [vscSwapchainExtent, h]

/-- Witness for `extent_policy` on an undefined-extent surface with a
requested extent below the minimum bound. -/
theorem extent_policy_witness :
    sampleSwapchainExtent
        ⟨⟨4294967295, 0⟩, ⟨100, 100⟩, ⟨200, 200⟩, 2, 3⟩ ⟨50, 300⟩ =
      specClampedExtent
        ⟨⟨4294967295, 0⟩, ⟨100, 100⟩, ⟨200, 200⟩, 2, 3⟩ ⟨50, 300⟩ ∧
    vscSwapchainExtent
        ⟨⟨4294967295, 0⟩, ⟨100, 100⟩, ⟨200, 200⟩, 2, 3⟩ ⟨50, 300⟩ =
      ⟨50, 300⟩ :=
  (extent_policy ⟨⟨4294967295, 0⟩, ⟨100, 100⟩, ⟨200, 200⟩, 2, 3⟩
    ⟨50, 300⟩).1 (by decide)

/-- Helper: the code's sentinel test (`formatCount == 1 &&
surfaceFormats[0].format == VK_FORMAT_UNDEFINED`) holds exactly when
the format list is one undefined entry. -/
theorem sentinel_cond_iff (formats : List SurfaceFormat) :
    (formats.length = 1 ∧
        (formats.headD ⟨VK_FORMAT_UNDEFINED, 0⟩).format = VK_FORMAT_UNDEFINED) ↔
      ∃ cs, formats = [⟨VK_FORMAT_UNDEFINED, cs⟩] := by
  cases formats with
  | nil => simp
  | cons f rest =>
    cases rest with
    | nil =>
      cases f with
      | mk fmt cs =>
        constructor
        · intro hc
          exact ⟨cs, by simp_all [List.headD]⟩
        · rintro ⟨cs', heq⟩
          simp only [List.cons.injEq] at heq
          simp [List.headD, heq.1]
    | cons g rest' => simp

/-- Claim C7: if the surface reports exactly one supported format and
it is the `VK_FORMAT_UNDEFINED` sentinel, both format-selection paths
(`VulkanSwapChain::initSurface` and the `test1.cpp` sample) return the
fixed default `VK_FORMAT_B8G8R8A8_UNORM`; in every other case each
path chooses a format from the reported list. -/
theorem format_selection (formats : List SurfaceFormat) (h : formats ≠ []) :
    ((∃ cs, formats = [⟨VK_FORMAT_UNDEFINED, cs⟩]) →
      (initSurfaceColorFormat formats).format = VK_FORMAT_B8G8R8A8_UNORM ∧
      sampleFormat formats = VK_FORMAT_B8G8R8A8_UNORM) ∧
    ((¬ ∃ cs, formats = [⟨VK_FORMAT_UNDEFINED, cs⟩]) →
      (initSurfaceColorFormat formats).format ∈
        formats.map SurfaceFormat.format ∧
      sampleFormat formats ∈ formats.map SurfaceFormat.format) := by
  constructor
  · rintro ⟨cs, rfl⟩
    exact ⟨by simp [initSurfaceColorFormat, VK_FORMAT_UNDEFINED],
      by simp [sampleFormat, VK_FORMAT_UNDEFINED]⟩
  · intro hn
    have hC : ¬(formats.length = 1 ∧
        (formats.headD ⟨VK_FORMAT_UNDEFINED, 0⟩).format = VK_FORMAT_UNDEFINED) :=
      fun hc => hn ((sentinel_cond_iff formats).mp hc)
    have hhead : formats.headD ⟨VK_FORMAT_UNDEFINED, 0⟩ ∈ formats := by
      cases formats with
      | nil => exact absurd rfl h
      | cons f rest => exact List.mem_cons_self f rest
    constructor
    · simp only [initSurfaceColorFormat]
      split
      · next hcond => exact absurd (by simpa using hcond) hC
      · cases hf : formats.find? (fun f => f.format = VK_FORMAT_B8G8R8A8_UNORM) with
        | some f =>
          simp only [hf]
          exact List.mem_map_of_mem SurfaceFormat.format
            (List.mem_of_find?_eq_some hf)
        | none =>
          simp only [hf]
          simpa using List.mem_map_of_mem SurfaceFormat.format hhead
    · simp only [sampleFormat]
      split
      · next hcond => exact absurd (by simpa using hcond) hC
      · simpa using List.mem_map_of_mem SurfaceFormat.format hhead

/-- Witness for `format_selection`: a surface reporting the single
undefined sentinel entry with color space 7 yields the BGRA8 default
on both paths. -/
theorem format_selection_witness :
    (initSurfaceColorFormat [⟨VK_FORMAT_UNDEFINED, 7⟩]).format =
      VK_FORMAT_B8G8R8A8_UNORM ∧
    sampleFormat [⟨VK_FORMAT_UNDEFINED, 7⟩] = VK_FORMAT_B8G8R8A8_UNORM :=
  (format_selection [⟨VK_FORMAT_UNDEFINED, 7⟩] (by decide)).1 ⟨7, rfl⟩

/-- Claim C5, counterexample: a material named exactly `"mask"` does
contain the substring `"mask"` (at position 0), yet `Scene::render`
places it in the *standard* bucket, not the background bucket: the
source reads `std::string::find` into an `int` and tests `> 0`, so an
occurrence at position 0 fails the test. -/
theorem mask_prefix_misbucketed :
    specContainsSub ['m', 'a', 's', 'k'] ['m', 'a', 's', 'k'] = true ∧
    renderBucket ['m', 'a', 's', 'k'] = Bucket.standard ∧
    Bucket.standard ≠ Bucket.bg := by
  exact ⟨by decide, by decide, by decide⟩

/-- Helper: the classification loop equals three index filters over
the position-tagged mesh list. -/
theorem bucketLoop_eq (names : List (List Char)) : ∀ i,
    bucketLoop i names =
      (((names.enumFrom i).filter
          (fun p => renderBucket p.2 = Bucket.bg)).map Prod.fst,
       ((names.enumFrom i).filter
          (fun p => renderBucket p.2 = Bucket.standard)).map Prod.fst,
       ((names.enumFrom i).filter
          (fun p => renderBucket p.2 = Bucket.alphaBlend)).map Prod.fst) := by
  induction names with
  | nil => intro i; rfl
  | cons n rest ih =>
    intro i
    simp only [bucketLoop, List.enumFrom, List.filter_cons, ih (i + 1)]
    cases hb : renderBucket n <;> simp [hb]

/-- Helper: filtering a list by each of the three bucket values and
concatenating is a permutation of the list. -/
theorem bucket_filter_perm {α : Type} (P : α → Bucket) (l : List α) :
    ((l.filter (fun x => P x = Bucket.bg)) ++
      (l.filter (fun x => P x = Bucket.standard)) ++
      (l.filter (fun x => P x = Bucket.alphaBlend))).Perm l := by
  induction l with
  | nil => simp
  | cons a l ih =>
    cases h : P a with
    | bg =>
      simpa [List.filter_cons, h] using ih.cons a
    | standard =>
      simp only [List.filter_cons, h]
      simp only [show (decide (Bucket.standard = Bucket.bg)) = false from rfl,
        show (decide (Bucket.standard = Bucket.standard)) = true from rfl,
        show (decide (Bucket.standard = Bucket.alphaBlend)) = false from rfl,
        Bool.false_eq_true, if_false, if_true]
      rw [List.append_assoc]
      refine List.Perm.trans List.perm_middle ?_
      refine List.Perm.cons a ?_
      simpa [List.append_eq, List.append_assoc] using ih
    | alphaBlend =>
      simp only [List.filter_cons, h]
      simp only [show (decide (Bucket.alphaBlend = Bucket.bg)) = false from rfl,
        show (decide (Bucket.alphaBlend = Bucket.standard)) = false from rfl,
        show (decide (Bucket.alphaBlend = Bucket.alphaBlend)) = true from rfl,
        Bool.false_eq_true, if_false, if_true]
      exact List.Perm.trans List.perm_middle (ih.cons a)

/-- Claim C5, amended: `Scene::render` draws the three buckets in the
fixed order background, standard, alpha-blended (each in mesh-index
order), and every mesh is drawn exactly once (the order is a
permutation of all mesh indices); but bucket membership is decided by
the substring occurring at a position strictly greater than zero
(`find(...) > 0` on an `int`), with the `"alpha"` test taking
precedence over the `"mask"` test — a name whose only occurrence of
the substring is at position 0 falls through to the standard bucket. -/
theorem scene_render_order (names : List (List Char)) :
    sceneRenderOrder names =
      ((names.enum.filter
          (fun p => renderBucket p.2 = Bucket.bg)).map Prod.fst) ++
      ((names.enum.filter
          (fun p => renderBucket p.2 = Bucket.standard)).map Prod.fst) ++
      ((names.enum.filter
          (fun p => renderBucket p.2 = Bucket.alphaBlend)).map Prod.fst) ∧
    (sceneRenderOrder names).Perm (List.range names.length) := by
  have h0 := bucketLoop_eq names 0
  constructor
  · simp [sceneRenderOrder, h0, List.enum]
  · have hperm := bucket_filter_perm (fun p => renderBucket p.2) names.enum
    have hmap := hperm.map Prod.fst
    rw [List.enum_map_fst] at hmap
    have heq : sceneRenderOrder names =
        ((names.enum.filter
            (fun p => renderBucket p.2 = Bucket.bg)) ++
          (names.enum.filter
            (fun p => renderBucket p.2 = Bucket.standard)) ++
          (names.enum.filter
            (fun p => renderBucket p.2 = Bucket.alphaBlend))).map Prod.fst := by
      simp [sceneRenderOrder, h0, List.enum, List.map_append]
    rw [heq]
    exact hmap

/-- Helper: filtering the concatenation produced by `flatMap` equals
flat-mapping the filtered pieces. -/
theorem filter_flatMap_eq {α β : Type} (l : List α) (f : α → List β)
    (p : β → Bool) :
    (l.flatMap f).filter p = l.flatMap (fun a => (f a).filter p) := by
  induction l with
  | nil => rfl
  | cons a l ih => simp [List.flatMap_cons, List.filter_append, ih]

/-- Claim C1: for every frame, the execute-commands list assembled by
`updateCommandBuffers` is exactly the worker-major, slot-minor
enumeration of all `(worker, slot)` pairs (the dispatch order),
filtered by that frame's frustum visibility results — so it contains
precisely the buffers of objects whose visibility test passed, in
worker-major then slot-minor order, and no buffer of an object whose
test failed. -/
theorem updateCommandBuffers_frustum_filter (N M : Nat)
    (check : Nat → Nat → Bool) (data : Nat → Nat → ObjectData) :
    updateCommandBuffers N M check data =
      (dispatchJobs N M).filter (fun p => check p.1 p.2) := by
  unfold updateCommandBuffers assembleCommandBuffers dispatchJobs
  rw [filter_flatMap_eq]
  refine List.flatMap_congr ?_
  intro t htmem
  rw [List.mem_range] at htmem
  rw [List.filter_map]
  congr 1
  refine List.filter_congr ?_
  intro i himem
  rw [List.mem_range] at himem
  simp [runFrameJobs, threadRenderCode, htmem, himem]

/-- Helper: a `flatMap` over `range n` whose pieces vanish everywhere
except at `t < n` collapses to the piece at `t`. -/
theorem flatMap_if_single {β : Type} (n t : Nat) (ht : t < n)
    (L : Nat → List β) (h : ∀ u, u ≠ t → L u = []) :
    (List.range n).flatMap L = L t := by
  induction n with
  | zero => omega
  | succ k ih =>
    rw [List.range_succ, List.flatMap_append]
    by_cases hk : t = k
    · subst hk
      have hz : (List.range t).flatMap L = [] := by
        rw [List.flatMap_eq_nil_iff]
        intro u hu
        rw [List.mem_range] at hu
        exact h u (by omega)
      simp [hz, List.flatMap_cons]
    · have ht' : t < k := by omega
      rw [ih ht']
      simp [h k (by omega), List.flatMap_cons]

/-- Helper: worker `t`'s share of the dispatched jobs is exactly one
job per slot, in slot order. -/
theorem dispatchJobs_filter (n m t : Nat) (ht : t < n) :
    (dispatchJobs n m).filter (fun p => p.1 = t) =
      (List.range m).map (fun j => (t, j)) := by
  have hall : ∀ u, u ≠ t →
      ((List.range m).map (fun j => (u, j))).filter (fun p => p.1 = t) = [] := by
    intro u hu
    simp [List.filter_map, Function.comp_def, hu]
  unfold dispatchJobs
  rw [filter_flatMap_eq, flatMap_if_single n t ht _ hall]
  simp [List.filter_map, Function.comp_def]

/-- Helper: tagging every element of a list with a fixed worker index
preserves element counts. -/
theorem count_map_pair (t : Nat) (l : List Nat) (i : Nat) :
    (l.map (fun j => (t, j))).count (t, i) = l.count i := by
  induction l with
  | nil => rfl
  | cons a l ih => simp [List.count_cons, ih]

/-- Helper: each in-range `(worker, slot)` pair occurs exactly once in
the dispatch list. -/
theorem dispatchJobs_count (n m t i : Nat) (ht : t < n) (hi : i < m) :
    (dispatchJobs n m).count (t, i) = 1 := by
  have h1 : ((dispatchJobs n m).filter (fun p => p.1 = t)).count (t, i) =
      (dispatchJobs n m).count (t, i) :=
    List.count_filter (by simp)
  rw [← h1, dispatchJobs_filter n m t ht, count_map_pair]
  exact List.count_eq_one_of_mem (List.nodup_range m) (List.mem_range.mpr hi)

/-- Helper: the dispatch list has exactly `workers × slots` entries. -/
theorem dispatchJobs_length (n m : Nat) :
    (dispatchJobs n m).length = n * m := by
  induction n with
  | zero => simp [dispatchJobs]
  | succ k ih =>
    have ih' : ((List.range k).flatMap
        (fun t => (List.range m).map (fun i => (t, i)))).length = k * m := ih
    show ((List.range (k + 1)).flatMap
        (fun t => (List.range m).map (fun i => (t, i)))).length = (k + 1) * m
    rw [List.range_succ, List.flatMap_append, List.length_append, ih',
      List.flatMap_cons]
    simp [Nat.succ_mul]

/-- Claim C9: the workload is statically partitioned —
`numObjectsPerThread` is the 1024-object budget divided by the worker
count, worker `t`'s queue receives exactly the slot-ordered jobs
`(t, 0) … (t, M-1)`, every in-range `(worker, slot)` task appears in
the frame's dispatch exactly once, the dispatch has exactly
`workers × slots` entries, and the total assigned objects never exceed
the 1024 budget (hence never exceed `workerCount × objectsPerWorker`,
which the total equals). -/
theorem static_partition (n t i : Nat) (ht : t < n)
    (hi : i < numObjectsPerThread n) :
    numObjectsPerThread n = 1024 / n ∧
    (dispatchJobs n (numObjectsPerThread n)).filter (fun p => p.1 = t) =
      (List.range (numObjectsPerThread n)).map (fun j => (t, j)) ∧
    (dispatchJobs n (numObjectsPerThread n)).count (t, i) = 1 ∧
    (dispatchJobs n (numObjectsPerThread n)).length =
      n * numObjectsPerThread n ∧
    n * numObjectsPerThread n ≤ 1024 := by
  refine ⟨rfl, dispatchJobs_filter _ _ _ ht,
    dispatchJobs_count _ _ _ _ ht hi, dispatchJobs_length _ _, ?_⟩
  simpa [Nat.mul_comm] using Nat.div_mul_le_self 1024 n

/-- Witness for `static_partition` with 4 workers (256 objects per
worker), worker 1, slot 3. -/
theorem static_partition_witness :
    numObjectsPerThread 4 = 1024 / 4 ∧
    (dispatchJobs 4 (numObjectsPerThread 4)).filter (fun p => p.1 = 1) =
      (List.range (numObjectsPerThread 4)).map (fun j => (1, j)) ∧
    (dispatchJobs 4 (numObjectsPerThread 4)).count (1, 3) = 1 ∧
    (dispatchJobs 4 (numObjectsPerThread 4)).length =
      4 * numObjectsPerThread 4 ∧
    4 * numObjectsPerThread 4 ≤ 1024 :=
  static_partition 4 1 3 (by decide) (by decide)

/-- Helper: when no family supports both graphics and present, pass
one never sets the present index. -/
theorem pass1_snd_none (fams : List QueueFamily)
    (h : ∀ f ∈ fams, ¬(f.graphics = true ∧ f.present = true)) :
    ∀ i g, (pass1 fams i g).2 = none := by
  induction fams with
  | nil => intro i g; rfl
  | cons f rest ih =>
    intro i g
    have hrest : ∀ f' ∈ rest, ¬(f'.graphics = true ∧ f'.present = true) :=
      fun f' hf' => h f' (List.mem_cons_of_mem f hf')
    simp only [pass1]
    by_cases hg : f.graphics = true
    · have hp : ¬(f.present = true) :=
        fun hp => h f (List.mem_cons_self f rest) ⟨hg, hp⟩
      rw [if_pos hg, if_neg hp]
      exact ih hrest _ _
    · rw [if_neg hg]
      exact ih hrest _ _

/-- Helper: when no combined family exists, pass one never overwrites
an already-set graphics accumulator. -/
theorem pass1_fst_acc (fams : List QueueFamily)
    (h : ∀ f ∈ fams, ¬(f.graphics = true ∧ f.present = true)) :
    ∀ i a, (pass1 fams i (some a)).1 = some a := by
  induction fams with
  | nil => intro i a; rfl
  | cons f rest ih =>
    intro i a
    have hrest : ∀ f' ∈ rest, ¬(f'.graphics = true ∧ f'.present = true) :=
      fun f' hf' => h f' (List.mem_cons_of_mem f hf')
    simp only [pass1]
    by_cases hg : f.graphics = true
    · have hp : ¬(f.present = true) :=
        fun hp => h f (List.mem_cons_self f rest) ⟨hg, hp⟩
      rw [if_pos hg, if_neg hp]
      simpa using ih hrest (i + 1) a
    · rw [if_neg hg]
      exact ih hrest _ _

/-- Helper: when no combined family exists, pass one's graphics index
is the index of the first graphics-capable family. -/
theorem pass1_fst_eq_findGraphics (fams : List QueueFamily)
    (h : ∀ f ∈ fams, ¬(f.graphics = true ∧ f.present = true)) :
    ∀ i, (pass1 fams i none).1 = findGraphics fams i := by
  induction fams with
  | nil => intro i; rfl
  | cons f rest ih =>
    intro i
    have hrest : ∀ f' ∈ rest, ¬(f'.graphics = true ∧ f'.present = true) :=
      fun f' hf' => h f' (List.mem_cons_of_mem f hf')
    simp only [pass1, findGraphics]
    by_cases hg : f.graphics = true
    · have hp : ¬(f.present = true) :=
        fun hp => h f (List.mem_cons_self f rest) ⟨hg, hp⟩
      rw [if_pos hg, if_neg hp, if_pos hg]
      simpa using pass1_fst_acc rest hrest (i + 1) i
    · rw [if_neg hg, if_neg hg]
      exact ih hrest _

/-- Helper: when some family supports both graphics and present, pass
one returns one shared index for both roles. -/
theorem pass1_combined (fams : List QueueFamily)
    (h : ∃ f ∈ fams, f.graphics = true ∧ f.present = true) :
    ∀ i g, ∃ j, pass1 fams i g = (some j, some j) := by
  induction fams with
  | nil => simp at h
  | cons f rest ih =>
    intro i g
    simp only [pass1]
    by_cases hg : f.graphics = true
    · by_cases hp : f.present = true
      · rw [if_pos hg, if_pos hp]
        exact ⟨i, rfl⟩
      · rw [if_pos hg, if_neg hp]
        have hrest : ∃ f' ∈ rest, f'.graphics = true ∧ f'.present = true := by
          obtain ⟨f', hf', hfg, hfp⟩ := h
          rcases List.mem_cons.mp hf' with heq | hmem
          · exact absurd (heq ▸ hfp) hp
          · exact ⟨f', hmem, hfg, hfp⟩
        exact ih hrest _ _
    · rw [if_neg hg]
      have hrest : ∃ f' ∈ rest, f'.graphics = true ∧ f'.present = true := by
        obtain ⟨f', hf', hfg, hfp⟩ := h
        rcases List.mem_cons.mp hf' with heq | hmem
        · exact absurd (heq ▸ hfg) hg
        · exact ⟨f', hmem, hfg, hfp⟩
      exact ih hrest _ _

/-- Helper: an index returned by `findGraphics` points at a
graphics-capable family. -/
theorem findGraphics_spec (fams : List QueueFamily) :
    ∀ i j, findGraphics fams i = some j →
      ∃ k, ∃ hk : k < fams.length,
        j = i + k ∧ (fams.get ⟨k, hk⟩).graphics = true := by
  induction fams with
  | nil => intro i j hj; simp [findGraphics] at hj
  | cons f rest ih =>
    intro i j hj
    simp only [findGraphics] at hj
    by_cases hg : f.graphics = true
    · rw [if_pos hg] at hj
      refine ⟨0, by simp, ?_, hg⟩
      simpa using (Option.some.inj hj).symm
    · rw [if_neg hg] at hj
      obtain ⟨k, hk, hjk, hkg⟩ := ih (i + 1) j hj
      exact ⟨k + 1, by simpa using Nat.succ_lt_succ hk, by omega, hkg⟩

/-- Helper: an index returned by `findPresent` points at a
present-capable family. -/
theorem findPresent_spec (fams : List QueueFamily) :
    ∀ i j, findPresent fams i = some j →
      ∃ k, ∃ hk : k < fams.length,
        j = i + k ∧ (fams.get ⟨k, hk⟩).present = true := by
  induction fams with
  | nil => intro i j hj; simp [findPresent] at hj
  | cons f rest ih =>
    intro i j hj
    simp only [findPresent] at hj
    by_cases hp : f.present = true
    · rw [if_pos hp] at hj
      refine ⟨0, by simp, ?_, hp⟩
      simpa using (Option.some.inj hj).symm
    · rw [if_neg hp] at hj
      obtain ⟨k, hk, hjk, hkp⟩ := ih (i + 1) j hj
      exact ⟨k + 1, by simpa using Nat.succ_lt_succ hk, by omega, hkp⟩

/-- Helper: when no combined family exists, the first graphics index
and the first present index (when both exist) are distinct. -/
theorem findGraphics_ne_findPresent (fams : List QueueFamily)
    (h : ∀ f ∈ fams, ¬(f.graphics = true ∧ f.present = true))
    (a b : Nat) (ha : findGraphics fams 0 = some a)
    (hb : findPresent fams 0 = some b) : a ≠ b := by
  intro hab
  obtain ⟨k₁, hk₁, hak, hg⟩ := findGraphics_spec fams 0 a ha
  obtain ⟨k₂, hk₂, hbk, hp⟩ := findPresent_spec fams 0 b hb
  have hkk : k₂ = k₁ := by omega
  subst hkk
  exact h (fams.get ⟨k₂, hk₁⟩) (List.get_mem fams k₂ hk₁) ⟨hg, hp⟩

/-- Helper: with no combined family, the two-pass selection returns
the first graphics index and the first present index. -/
theorem selectQueueIndices_no_combined (fams : List QueueFamily)
    (hno : ∀ f ∈ fams, ¬(f.graphics = true ∧ f.present = true)) :
    selectQueueIndices fams = (findGraphics fams 0, findPresent fams 0) := by
  have h2 := pass1_snd_none fams hno 0 none
  have h1 := pass1_fst_eq_findGraphics fams hno 0
  simp only [selectQueueIndices]
  rw [h2, h1]

/-- Helper: with a combined family present, the two-pass selection
returns one shared index for both roles. -/
theorem selectQueueIndices_combined (fams : List QueueFamily)
    (h : ∃ f ∈ fams, f.graphics = true ∧ f.present = true) :
    ∃ j, selectQueueIndices fams = (some j, some j) := by
  obtain ⟨j, hj⟩ := pass1_combined fams h 0 none
  refine ⟨j, ?_⟩
  simp only [selectQueueIndices]
  rw [hj]

/-- Helper: `VulkanSwapChain::initSurface`'s queue search succeeds
exactly when some single family supports both graphics and present. -/
theorem initSurfaceQueue_ok_iff (fams : List QueueFamily) :
    (∃ q, initSurfaceQueueNodeIndex fams = Except.ok q) ↔
      ∃ f ∈ fams, f.graphics = true ∧ f.present = true := by
  constructor
  · rintro ⟨q, hq⟩
    by_contra hno
    have hno' : ∀ f ∈ fams, ¬(f.graphics = true ∧ f.present = true) :=
      fun f hf hfp => hno ⟨f, hf, hfp⟩
    have hsel := selectQueueIndices_no_combined fams hno'
    unfold initSurfaceQueueNodeIndex at hq
    rw [hsel] at hq
    cases hg : findGraphics fams 0 with
    | none =>
      rw [hg] at hq
      cases hp : findPresent fams 0 <;> rw [hp] at hq <;> simp at hq
    | some a =>
      rw [hg] at hq
      cases hp : findPresent fams 0 with
      | none =>
        rw [hp] at hq
        simp at hq
      | some b =>
        rw [hp] at hq
        have hne := findGraphics_ne_findPresent fams hno' a b hg hp
        simp [hne] at hq
  · intro h
    obtain ⟨j, hj⟩ := selectQueueIndices_combined fams h
    refine ⟨j, ?_⟩
    unfold initSurfaceQueueNodeIndex
    rw [hj]
    simp

/-- Claim C2, counterexample: for the family list
[graphics-only, present-only] the selection does produce the two
distinct indices 0 and 1, but the `VulkanSwapChain` class then
terminates fatally ("Separate graphics and presenting queues are not
supported yet!") instead of creating a swapchain, and its
`imageSharingMode` is unconditionally exclusive — so the claim that
"the resulting swapchain is created with concurrent image sharing mode"
is false on the `VulkanSwapChain` path. -/
theorem vsc_aborts_on_disjoint_families :
    selectQueueIndices [⟨true, false⟩, ⟨false, true⟩] = (some 0, some 1) ∧
    initSurfaceQueueNodeIndex [⟨true, false⟩, ⟨false, true⟩] =
      Except.error
        "Separate graphics and presenting queues are not supported yet!" ∧
    vscImageSharingMode = SharingMode.exclusive := by
  exact ⟨by decide, rfl, rfl⟩

/-- Claim C2, amended: for a queue-family list with no combined family
but a first graphics-capable family (index `a`) and a first
present-capable family (index `b`), the selection returns the distinct
pair `(a, b)`; the `test1.cpp` sample accepts it and creates the
swapchain with concurrent sharing mode listing both indices, while
`VulkanSwapChain::initSurface` instead terminates fatally. -/
theorem disjoint_families_selection (fams : List QueueFamily)
    (hno : ∀ f ∈ fams, ¬(f.graphics = true ∧ f.present = true))
    (a b : Nat) (ha : findGraphics fams 0 = some a)
    (hb : findPresent fams 0 = some b) :
    selectQueueIndices fams = (some a, some b) ∧
    sampleQueueIndices fams = Except.ok (a, b) ∧
    a ≠ b ∧
    sampleSharing a b = (SharingMode.concurrent, [a, b]) ∧
    initSurfaceQueueNodeIndex fams =
      Except.error
        "Separate graphics and presenting queues are not supported yet!" := by
  have hsel := selectQueueIndices_no_combined fams hno
  have hne := findGraphics_ne_findPresent fams hno a b ha hb
  refine ⟨by rw [hsel, ha, hb], ?_, hne, ?_, ?_⟩
  · unfold sampleQueueIndices
    rw [hsel, ha, hb]
  · simp [sampleSharing, hne]
  · unfold initSurfaceQueueNodeIndex
    rw [hsel, ha, hb]
    simp [hne]

/-- Witness for `disjoint_families_selection` on the family list
[graphics-only, present-only]. -/
theorem disjoint_families_selection_witness :
    selectQueueIndices [⟨true, false⟩, ⟨false, true⟩] = (some 0, some 1) ∧
    sampleQueueIndices [⟨true, false⟩, ⟨false, true⟩] = Except.ok (0, 1) ∧
    (0 : Nat) ≠ 1 ∧
    sampleSharing 0 1 = (SharingMode.concurrent, [0, 1]) ∧
    initSurfaceQueueNodeIndex [⟨true, false⟩, ⟨false, true⟩] =
      Except.error
        "Separate graphics and presenting queues are not supported yet!" :=
  disjoint_families_selection [⟨true, false⟩, ⟨false, true⟩]
    (by decide) 0 1 (by decide) (by decide)

/-- Claim C8, counterexample: the family list
[graphics-only, present-only] has a graphics-capable family and a
present-capable family, and the surface reports a nonempty format list
and a nonempty present-mode list — none of the claim's termination
conditions hold — yet initialization of the `VulkanSwapChain` class
terminates fatally (on the separate-queues check), so the claim's
"exactly in these cases" is false. -/
theorem init_fatal_outside_claimed_cases :
    vscInitSequence [⟨true, false⟩, ⟨false, true⟩] [⟨44, 0⟩] [2] =
      Except.error
        "Separate graphics and presenting queues are not supported yet!" ∧
    (∃ f ∈ [(⟨true, false⟩ : QueueFamily), ⟨false, true⟩],
      f.graphics = true) ∧
    (∃ f ∈ [(⟨true, false⟩ : QueueFamily), ⟨false, true⟩],
      f.present = true) ∧
    ([(⟨44, 0⟩ : SurfaceFormat)] ≠ []) ∧ (([2] : List Nat) ≠ []) := by
  exact ⟨rfl, by decide, by decide, by decide, by decide⟩

/-- Claim C8, amended: `VulkanSwapChain` initialization (queue search,
format-count assertion, present-mode-count assertion) terminates
fatally — producing a diagnostic, with no retry path — exactly when no
single queue family supports both graphics and presentation (which
covers the claim's missing-graphics and missing-present cases, and
additionally the case of disjoint graphics-only and present-only
families), or the surface reports zero formats, or zero present
modes; in every other case it returns normally. -/
theorem init_fatal_iff (fams : List QueueFamily)
    (formats : List SurfaceFormat) (modes : List Nat) :
    (∃ r, vscInitSequence fams formats modes = Except.ok r) ↔
      ((∃ f ∈ fams, f.graphics = true ∧ f.present = true) ∧
        formats ≠ [] ∧ modes ≠ []) := by
  constructor
  · rintro ⟨r, hr⟩
    unfold vscInitSequence at hr
    cases hq : initSurfaceQueueNodeIndex fams with
    | error e =>
      rw [hq] at hr
      simp at hr
    | ok q =>
      rw [hq] at hr
      refine ⟨(initSurfaceQueue_ok_iff fams).mp ⟨q, hq⟩, ?_, ?_⟩
      · intro hf
        rw [hf] at hr
        simp at hr
      · intro hm
        rw [hm] at hr
        by_cases hfe : formats.isEmpty = true
        · simp [hfe] at hr
        · simp [hfe] at hr
  · rintro ⟨hcomb, hf, hm⟩
    obtain ⟨q, hq⟩ := (initSurfaceQueue_ok_iff fams).mpr hcomb
    refine ⟨(q, initSurfaceColorFormat formats), ?_⟩
    unfold vscInitSequence
    rw [hq]
    simp [List.isEmpty_eq_true, hf, hm]

end VulkanTest
